import Mathlib

/-!
Verification of `beelay`'s handshake stream module (`src/messages/stream.rs`):
the wire-message codec (`Message.encode` / `Message.decode`) and the handshake
state machine (`Connecting`, `Connected`, `Step`).

Bytes are modelled as `Nat` values (every byte the code produces is `< 256`);
byte sequences as `List Nat`.  A `PeerId` is an opaque identity string,
modelled by its UTF-8 byte sequence, since the code only ever moves it between
`String` and bytes verbatim.
-/

namespace Beelay

/-- A peer identity, modelled as the UTF-8 bytes of its identity string.
Equality of peer ids in the code is structural string equality, which
coincides with equality of the UTF-8 byte sequences. -/
abbrev PeerId := List Nat

/-- Modelled from the spec: `Payload` is an opaque byte-bearing value whose
encoding is owned by an external collaborator (`crate::Payload`, not under
`src/`); the handshake module treats it as an atomic unit. -/
structure Payload where
  bytes : List Nat
deriving DecidableEq, Repr

/-- Modelled from the spec: the external payload codec emits the payload's
externally-defined encoding verbatim (`Payload::encode`, not under `src/`). -/
def Payload.encode (p : Payload) : List Nat := p.bytes

/-- Modelled from the spec: `Envelope` is the external data structure pairing
a sender identity, recipient identity and opaque payload
(`crate::Envelope`, not under `src/`). -/
structure Envelope where
  sender : PeerId
  recipient : PeerId
  payload : Payload
deriving DecidableEq, Repr

/-- Modelled from the spec: `Envelope::take_payload` (not under `src/`)
extracts only the payload from the envelope. -/
def Envelope.take_payload (e : Envelope) : Payload := e.payload

/-- The private tagged union behind `Message` (`MessageInner` in
`stream.rs`). -/
inductive MessageInner where
  | helloDearServer (peerId : PeerId)
  | whyHelloDearClient (peerId : PeerId)
  | data (payload : Payload)
deriving DecidableEq, Repr

/-- The public wire message newtype (`Message` in `stream.rs`). -/
structure Message where
  inner : MessageInner
deriving DecidableEq, Repr

/-- Modelled from the spec: `crate::leb128::encode_uleb128` (not under
`src/`) emits an unsigned LEB128 integer: 7 data bits per byte, low bits
first, high bit set on all but the final byte. -/
def encode_uleb128 (n : Nat) : List Nat :=
  if n < 128 then [n]
  else (n % 128 + 128) :: encode_uleb128 (n / 128)
decreasing_by exact Nat.div_lt_self (by omega) (by omega)

/-- Modelled from the spec: the parse error type of `crate::parse` (not under
`src/`): either the input ended early, or a described failure. -/
inductive ParseError where
  | notEnoughInput
  | other (context : String) (error : String)
deriving DecidableEq, Repr

/-- `DecodeError` from `stream.rs`'s `error` module. -/
inductive DecodeError where
  | notEnoughInput
  | invalid (msg : String)
deriving DecidableEq, Repr

/-- The `From<parse::ParseError> for DecodeError` conversion in `stream.rs`:
`NotEnoughInput` maps to `NotEnoughInput`, `Other { context, error }` maps to
`Invalid` carrying a description formatted from both fields. -/
def DecodeError.ofParseError : ParseError → DecodeError
  | .notEnoughInput => .notEnoughInput
  | .other context error => .invalid (context ++ ": " ++ error)

/-- Modelled from the spec: `crate::parse::u8` (not under `src/`) reads one
byte, failing with `NotEnoughInput` on empty input. Parsers return the
remaining input paired with the parsed value, mirroring the Rust signature. -/
def parse_u8 : List Nat → Except ParseError (List Nat × Nat)
  | [] => .error .notEnoughInput
  | b :: rest => .ok (rest, b)

/-- Modelled from the spec: the ULEB128 reader of `crate::parse` (not under
`src/`): accumulates 7 data bits per byte, low bits first, stopping at the
first byte with the high bit clear; `none` when the input ends early. -/
def parse_uleb128 : List Nat → Option (Nat × List Nat)
  | [] => none
  | b :: rest =>
    if b < 128 then some (b, rest)
    else
      match parse_uleb128 rest with
      | some (m, rest2) => some (b - 128 + 128 * m, rest2)
      | none => none

/-- Modelled from the spec: `crate::parse::str` (not under `src/`) parses a
ULEB128 byte length followed by that many identity bytes, failing with
`NotEnoughInput` if the input ends early.  (UTF-8 validation is abstracted
away: every identity the code encodes is the UTF-8 image of a `String`, so
the validation never fails on the inputs the claims quantify over.) -/
def parse_str (input : List Nat) : Except ParseError (List Nat × List Nat) :=
  match parse_uleb128 input with
  | none => .error .notEnoughInput
  | some (len, rest) =>
    if len ≤ rest.length then .ok (rest.drop len, rest.take len)
    else .error .notEnoughInput

/-- Modelled from the spec: `crate::messages::decode::parse_payload` (not
under `src/`) delegates the remaining bytes to the external payload decoder,
which consumes the remainder of the input. -/
def parse_payload (input : List Nat) : Except ParseError (List Nat × Payload) :=
  .ok ([], Payload.mk input)

/-- `Message::encode` from `stream.rs`: one tag byte (`0` / `1` / `2`), then
for the hello variants a ULEB128 length plus the identity bytes, and for
`Data` the payload's own encoding verbatim. -/
def Message.encode (m : Message) : List Nat :=
  match m.inner with
  | .helloDearServer peer_id => 0 :: (encode_uleb128 peer_id.length ++ peer_id)
  | .whyHelloDearClient peer_id => 1 :: (encode_uleb128 peer_id.length ++ peer_id)
  | .data payload => 2 :: payload.encode

/-- `Message::decode` from `stream.rs`: read the tag byte, dispatch on it,
parsing a length-prefixed identity for tags `0` and `1`, delegating to the
payload decoder for tag `2`, and rejecting any other tag. -/
def Message.decode (data : List Nat) : Except DecodeError Message :=
  match parse_u8 data with
  | .error e => .error (DecodeError.ofParseError e)
  | .ok (input, msg_type) =>
    match msg_type with
    | 0 =>
      match parse_str input with
      | .error e => .error (DecodeError.ofParseError e)
      | .ok (_input, peer_id_str) =>
        .ok (Message.mk (.helloDearServer peer_id_str))
    | 1 =>
      match parse_str input with
      | .error e => .error (DecodeError.ofParseError e)
      | .ok (_input, peer_id_str) =>
        .ok (Message.mk (.whyHelloDearClient peer_id_str))
    | 2 =>
      match parse_payload input with
      | .error e => .error (DecodeError.ofParseError e)
      | .ok (_input, payload) => .ok (Message.mk (.data payload))
    | _ => .error (.invalid "invalid message type")

/-- The initial handshake state (`Connecting` in `stream.rs`): holds the
local party's own peer id. -/
structure Connecting where
  us : PeerId
deriving DecidableEq, Repr

/-- The connected state (`Connected` in `stream.rs`). -/
structure Connected where
  our_peer_id : PeerId
  their_peer_id : PeerId
deriving DecidableEq, Repr

/-- A step of the handshake (`Step` in `stream.rs`): continue, or done,
each with an optional message to send. -/
inductive Step where
  | cont (state : Connecting) (msg : Option Message)
  | done (conn : Connected) (msg : Option Message)
deriving DecidableEq, Repr

/-- The handshake error type (`Error` in `stream.rs`'s `error` module). -/
inductive Error where
  | unexpectedMessage
deriving DecidableEq, Repr

/-- `Connecting::accept` from `stream.rs`. -/
def Connecting.accept (us : PeerId) : Step :=
  .cont (Connecting.mk us) none

/-- `Connecting::connect` from `stream.rs`. -/
def Connecting.connect (us : PeerId) : Step :=
  .cont (Connecting.mk us) (some (Message.mk (.helloDearServer us)))

/-- `Connecting::receive` from `stream.rs`. -/
def Connecting.receive (self : Connecting) (msg : Message) : Except Error Step :=
  match msg.inner with
  | .helloDearServer their_peer_id =>
    .ok (.done (Connected.mk self.us their_peer_id)
      (some (Message.mk (.whyHelloDearClient self.us))))
  | .whyHelloDearClient their_peer_id =>
    .ok (.done (Connected.mk self.us their_peer_id) none)
  | _ => .error .unexpectedMessage

/-- `Connected::receive` from `stream.rs`. -/
def Connected.receive (self : Connected) (msg : Message) : Except Error Envelope :=
  match msg.inner with
  | .data payload =>
    .ok (Envelope.mk self.their_peer_id self.our_peer_id payload)
  | _ => .error .unexpectedMessage

/-- `Connected::send` from `stream.rs`. -/
def Connected.send (self : Connected) (env : Envelope) : Message :=
  Message.mk (.data env.take_payload)

/-! ## Codec lemmas -/

/-- Parsing a ULEB128 encoding followed by any suffix recovers the encoded
number and leaves exactly the suffix. -/
theorem parse_encode_uleb128 (n : Nat) (s : List Nat) :
    parse_uleb128 (encode_uleb128 n ++ s) = some (n, s) := by
  induction n using Nat.strong_induction_on with
  | _ n ih =>
    rw [encode_uleb128]
    by_cases h : n < 128
    · simp [h, parse_uleb128]
    · have h2 : ¬ (n % 128 + 128 < 128) := by omega
      simp only [h, if_false, List.cons_append, parse_uleb128, h2]
      rw [ih (n / 128) (Nat.div_lt_self (by omega) (by omega))]
      simp only [Option.some.injEq, Prod.mk.injEq, and_true]
      omega

/-- Parsing a length-prefixed byte string followed by any suffix recovers
the bytes and leaves exactly the suffix as remaining input. -/
theorem parse_str_encoded (pid : PeerId) (s : List Nat) :
    parse_str (encode_uleb128 pid.length ++ (pid ++ s)) = .ok (s, pid) := by
  unfold parse_str
  rw [parse_encode_uleb128]
  have hle : pid.length ≤ (pid ++ s).length := by simp
  simp [hle, List.take_left, List.drop_left]

/-- Decoding the encoding of any message recovers the message. -/
theorem decode_encode_eq (m : Message) : Message.decode m.encode = .ok m := by
  obtain ⟨inner⟩ := m
  cases inner with
  | helloDearServer pid =>
    show Message.decode (0 :: (encode_uleb128 pid.length ++ pid)) = _
    have h := parse_str_encoded pid []
    rw [List.append_nil] at h
    simp [Message.decode, parse_u8, h]
  | whyHelloDearClient pid =>
    show Message.decode (1 :: (encode_uleb128 pid.length ++ pid)) = _
    have h := parse_str_encoded pid []
    rw [List.append_nil] at h
    simp [Message.decode, parse_u8, h]
  | data p =>
    obtain ⟨bs⟩ := p
    rfl

/-! ## Claims -/

/-- Claim C1: for every constructible wire message `m` (both hello variants
with any peer id, including the empty one, and `Data` with any payload),
`Message.decode (Message.encode m)` returns `Ok m`. -/
theorem c1_decode_encode_roundtrip (m : Message) :
    Message.decode (Message.encode m) = Except.ok m :=
  decode_encode_eq m

/-- Claim C2: `accept A` yields `Continue (Connecting A) None`, and feeding
that state `HelloFromInitiator B` yields
`Done (Connected A B) (Some (HelloFromAcceptor A))`. -/
theorem c2_acceptor_flow (A B : PeerId) :
    Connecting.accept A = Step.cont (Connecting.mk A) none ∧
    Connecting.receive (Connecting.mk A) (Message.mk (.helloDearServer B)) =
      Except.ok (Step.done (Connected.mk A B)
        (some (Message.mk (.whyHelloDearClient A)))) :=
  ⟨rfl, rfl⟩

/-- Claim C3: `connect A` yields
`Continue (Connecting A) (Some (HelloFromInitiator A))`, and feeding that
state `HelloFromAcceptor B` yields `Done (Connected A B) None`. -/
theorem c3_initiator_flow (A B : PeerId) :
    Connecting.connect A =
      Step.cont (Connecting.mk A) (some (Message.mk (.helloDearServer A))) ∧
    Connecting.receive (Connecting.mk A) (Message.mk (.whyHelloDearClient B)) =
      Except.ok (Step.done (Connected.mk A B) none) :=
  ⟨rfl, rfl⟩

/-- Claim C4: `Connecting.receive` errs exactly on `Data` messages, the
error is always `UnexpectedMessage`, and both hello variants yield an `Ok`
result carrying a `Done` step. -/
theorem c4_connecting_receive_cases (c : Connecting) (m : Message) :
    match m.inner with
    | .data _ => c.receive m = Except.error Error.unexpectedMessage
    | .helloDearServer pid =>
      c.receive m = Except.ok (Step.done (Connected.mk c.us pid)
        (some (Message.mk (.whyHelloDearClient c.us))))
    | .whyHelloDearClient pid =>
      c.receive m = Except.ok (Step.done (Connected.mk c.us pid) none) := by
  obtain ⟨us⟩ := c
  obtain ⟨inner⟩ := m
  cases inner <;> rfl

/-- Claim C5: on a `Connected` value, `receive (Data payload)` yields
`Ok (Envelope their our payload)` and both hello variants yield
`Err UnexpectedMessage`. -/
theorem c5_connected_receive_cases (conn : Connected) (m : Message) :
    match m.inner with
    | .data p => conn.receive m =
        Except.ok (Envelope.mk conn.their_peer_id conn.our_peer_id p)
    | _ => conn.receive m = Except.error Error.unexpectedMessage := by
  obtain ⟨our, their⟩ := conn
  obtain ⟨inner⟩ := m
  cases inner <;> rfl

/-- Claim C6: `send` wraps exactly the envelope's payload as a `Data`
message, discarding the envelope's own sender and recipient; decoding its
encoded bytes and feeding the result to `receive` on the same `Connected`
value yields an envelope with the handshake-derived identities and the
original payload. -/
theorem c6_envelope_bridging (conn : Connected) (e : Envelope) :
    conn.send e = Message.mk (.data e.payload) ∧
    ∃ m, Message.decode (Message.encode (conn.send e)) = Except.ok m ∧
      conn.receive m =
        Except.ok (Envelope.mk conn.their_peer_id conn.our_peer_id e.payload) :=
  ⟨rfl, Message.mk (.data e.payload), decode_encode_eq _, rfl⟩

/-- Claim C7 counterexample: the codec is not a bijection onto the byte
sequences decode accepts. `[0, 0, 99]` decodes to
`HelloFromInitiator ""` (the trailing byte `99` is ignored), but encoding
that message yields `[0, 0]`, not `[0, 0, 99]`. -/
theorem c7_counterexample :
    Message.decode [0, 0, 99] =
      Except.ok (Message.mk (.helloDearServer [])) ∧
    Message.encode (Message.mk (.helloDearServer [])) ≠ [0, 0, 99] := by
  refine ⟨rfl, ?_⟩
  have h : Message.encode (Message.mk (.helloDearServer [])) = [0, 0] := by
    simp [Message.encode, encode_uleb128]
  simp [h]

/-- Claim C7 amended: `encode` is deterministic and injective, and `decode`
is a left inverse of `encode` (`decode (encode m) = Ok m` for every `m`);
but `encode` is not a right inverse of `decode` on every accepted byte
sequence, since hello decoding ignores trailing bytes. -/
theorem c7_encode_injective_left_inverse :
    (∀ m1 m2 : Message, Message.encode m1 = Message.encode m2 → m1 = m2) ∧
    (∀ m : Message, Message.decode (Message.encode m) = Except.ok m) := by
  refine ⟨?_, decode_encode_eq⟩
  intro m1 m2 h
  have h1 := decode_encode_eq m1
  rw [h] at h1
  have h2 := decode_encode_eq m2
  rw [h1] at h2
  injection h2

/-- Claim C7 amended, witness: the injectivity half applied at a concrete
message. -/
theorem c7_injectivity_witness :
    Message.mk (.data (Payload.mk [7])) = Message.mk (.data (Payload.mk [7])) :=
  c7_encode_injective_left_inverse.1 _ _ rfl

/-- Claim C8: decoding the empty byte sequence yields `NotEnoughInput`
(never the `Invalid` condition). -/
theorem c8_empty_input :
    Message.decode [] = Except.error DecodeError.notEnoughInput :=
  rfl

/-- Claim C9: any first byte outside `{0, 1, 2}` makes decoding fail with
the `Invalid` condition carrying a description, regardless of the remaining
bytes. -/
theorem c9_invalid_tag (b : Nat) (rest : List Nat)
    (h0 : b ≠ 0) (h1 : b ≠ 1) (h2 : b ≠ 2) :
    Message.decode (b :: rest) =
      Except.error (DecodeError.invalid "invalid message type") := by
  obtain ⟨k, rfl⟩ : ∃ k, b = k + 3 := ⟨b - 3, by omega⟩
  rfl

/-- Claim C9 witness: tag byte `5` with one trailing byte. -/
theorem c9_invalid_tag_witness :
    Message.decode [5, 7] =
      Except.error (DecodeError.invalid "invalid message type") :=
  c9_invalid_tag 5 [7] (by decide) (by decide) (by decide)

/-- Claim C10: for both hello variants, appending any non-empty suffix to
an encoded message leaves decoding unchanged: the bytes after the
length-prefixed identity are silently ignored. -/
theorem c10_trailing_bytes_ignored (pid : PeerId) (s : List Nat)
    (hs : s ≠ []) :
    Message.decode (Message.encode (Message.mk (.helloDearServer pid)) ++ s) =
      Except.ok (Message.mk (.helloDearServer pid)) ∧
    Message.decode (Message.encode (Message.mk (.whyHelloDearClient pid)) ++ s) =
      Except.ok (Message.mk (.whyHelloDearClient pid)) := by
  have h := parse_str_encoded pid s
  constructor
  · have he : Message.encode (Message.mk (.helloDearServer pid)) ++ s =
        0 :: (encode_uleb128 pid.length ++ (pid ++ s)) := by
      simp [Message.encode, List.append_assoc]
    rw [he]
    simp [Message.decode, parse_u8, h]
  · have he : Message.encode (Message.mk (.whyHelloDearClient pid)) ++ s =
        1 :: (encode_uleb128 pid.length ++ (pid ++ s)) := by
      simp [Message.encode, List.append_assoc]
    rw [he]
    simp [Message.decode, parse_u8, h]

/-- Claim C10 witness: the one-byte identity `[65]` with trailing byte `9`. -/
theorem c10_trailing_bytes_witness :
    ([9] : List Nat) ≠ [] ∧
    (Message.decode (Message.encode (Message.mk (.helloDearServer [65])) ++ [9]) =
      Except.ok (Message.mk (.helloDearServer [65])) ∧
    Message.decode (Message.encode (Message.mk (.whyHelloDearClient [65])) ++ [9]) =
      Except.ok (Message.mk (.whyHelloDearClient [65]))) :=
  ⟨by decide, c10_trailing_bytes_ignored [65] [9] (by decide)⟩

end Beelay
